import Mathlib

/-!
# DailySnap: verification of the candidate scoring, selection and publication pipeline

Shallow embedding of the repository's pipeline (the `processOneTweet` family in the
main script, together with its helpers `normalizeDomain`, `filterCandidatesByDominance`,
`generateStrictLengthSummary`, `validateMediaUrl` / `postTweet` media handling and the
`posted_links.json` store discipline) and proofs of the specification's testable
properties over that embedding.

JavaScript strings are modelled as Lean `String`s (lists of characters); the string
operations that the source uses (`toLowerCase`, `startsWith`, `endsWith`, `includes`,
`substring`, `slice`, `split('.').pop()`) are embedded as explicit functions on the
character list, matching the JavaScript semantics on the ASCII data the program
handles.  Fallible external collaborators (the Gemini summarizer, media download and
upload, the post call) are modelled as explicit oracle inputs; machine floats in the
score arithmetic are modelled as rationals (all weights are multiples of 1/2, which
are exact in binary floating point).
-/

namespace DailySnap

/-! ## JavaScript string primitives -/

/-- First-match association lookup on a list of character pairs. -/
def lowerLookup : List (Char × Char) → Char → Option Char
  | [], _ => none
  | (k, v) :: rest, c => if c = k then some v else lowerLookup rest c

/-- The upper-to-lower case table of the ASCII letters. -/
def lowerTable : List (Char × Char) :=
  [('A', 'a'), ('B', 'b'), ('C', 'c'), ('D', 'd'), ('E', 'e'), ('F', 'f'),
   ('G', 'g'), ('H', 'h'), ('I', 'i'), ('J', 'j'), ('K', 'k'), ('L', 'l'),
   ('M', 'm'), ('N', 'n'), ('O', 'o'), ('P', 'p'), ('Q', 'q'), ('R', 'r'),
   ('S', 's'), ('T', 't'), ('U', 'u'), ('V', 'v'), ('W', 'w'), ('X', 'x'),
   ('Y', 'y'), ('Z', 'z')]

/-- ASCII lower-casing of a single character, the behaviour of JavaScript
`String.prototype.toLowerCase` on the ASCII inputs handled by the program. -/
def lowerChar (c : Char) : Char := (lowerLookup lowerTable c).getD c

theorem lowerLookup_mem :
    ∀ (l : List (Char × Char)) (c v : Char), lowerLookup l c = some v → (c, v) ∈ l := by
  intro l
  induction l with
  | nil => intro c v h; simp [lowerLookup] at h
  | cons p rest ih =>
    intro c v h
    obtain ⟨k, w⟩ := p
    by_cases hc : c = k
    · subst hc
      simp [lowerLookup] at h
      simp [h]
    · simp [lowerLookup, hc] at h
      exact List.mem_cons_of_mem _ (ih c v h)

/-- JavaScript `s.toLowerCase()` (ASCII fragment). -/
def toLowerStr (s : String) : String := ⟨s.data.map lowerChar⟩

/-- JavaScript `s.startsWith(p)`. -/
def jsStartsWith (s p : String) : Bool := p.data.isPrefixOf s.data

/-- JavaScript `s.endsWith(p)`. -/
def jsEndsWith (s p : String) : Bool := p.data.isSuffixOf s.data

/-- JavaScript `s.slice(n)` / `s.substring(n)` for a nonnegative index. -/
def jsDropStr (s : String) (n : Nat) : String := ⟨s.data.drop n⟩

/-- JavaScript `s.substring(0, n)`. -/
def jsTakeStr (s : String) (n : Nat) : String := ⟨s.data.take n⟩

/-- Occurrence of `p` as a contiguous pattern in `t` (character lists). -/
def listIncludes (p : List Char) : List Char → Bool
  | [] => p.isEmpty
  | c :: rest => p.isPrefixOf (c :: rest) || listIncludes p rest

/-- JavaScript `s.includes(p)`. -/
def jsIncludes (s p : String) : Bool := listIncludes p.data s.data

theorem lowerChar_idem (c : Char) : lowerChar (lowerChar c) = lowerChar c := by
  unfold lowerChar
  cases h : lowerLookup lowerTable c with
  | none => simp [h]
  | some v =>
    have hm : v ∈ lowerTable.map Prod.snd :=
      List.mem_map_of_mem Prod.snd (lowerLookup_mem _ _ _ h)
    have hfix : ∀ w ∈ lowerTable.map Prod.snd, (lowerLookup lowerTable w).getD w = w := by
      decide
    simpa using hfix v hm

theorem toLowerStr_idem (s : String) : toLowerStr (toLowerStr s) = toLowerStr s := by
  unfold toLowerStr
  simp [List.map_map, Function.comp_def, lowerChar_idem]

/-! ## `normalizeDomain` (claim C10)

Embedded from the source:
```
function normalizeDomain(host) {
  if (!host) return host;
  host = host.toLowerCase();
  if (host.startsWith('www.')) host = host.slice(4);
  if (host.endsWith('.indiatimes.com')) return 'indiatimes.com';
  if (host.endsWith('.thehindu.com')) return 'thehindu.com';
  if (host.endsWith('.indianexpress.com')) return 'indianexpress.com';
  return host;
}
```
The only falsy `host` of string type is the empty string. -/

/-- The `if (host.startsWith('www.')) host = host.slice(4);` step. -/
def stripWWW (s : String) : String :=
  if jsStartsWith s "www." then jsDropStr s 4 else s

/-- The three `endsWith` collapse steps for multi-subdomain hosts. -/
def collapseKnown (s : String) : String :=
  if jsEndsWith s ".indiatimes.com" then "indiatimes.com"
  else if jsEndsWith s ".thehindu.com" then "thehindu.com"
  else if jsEndsWith s ".indianexpress.com" then "indianexpress.com"
  else s

def normalizeDomain (host : String) : String :=
  if host = "" then host else collapseKnown (stripWWW (toLowerStr host))

/-- C10 counterexample: a host with a doubled `www.` prefix is not a fixed point
of one application of `normalizeDomain`, so the function is not idempotent. -/
theorem normalizeDomain_not_idempotent :
    normalizeDomain (normalizeDomain "www.www.example.com")
      ≠ normalizeDomain "www.www.example.com" := by decide

theorem toLowerStr_stripWWW_lowered (s : String) :
    toLowerStr (stripWWW (toLowerStr s)) = stripWWW (toLowerStr s) := by
  unfold stripWWW
  by_cases h : jsStartsWith (toLowerStr s) "www." = true
  · simp only [h, if_pos]
    show toLowerStr (jsDropStr (toLowerStr s) 4) = jsDropStr (toLowerStr s) 4
    unfold toLowerStr jsDropStr
    simp [List.map_drop, List.map_map, Function.comp_def, lowerChar_idem]
  · simp only [h, if_neg, Bool.false_eq_true, not_false_eq_true, toLowerStr_idem]

theorem stripWWW_stripWWW (s : String)
    (hw : jsStartsWith (toLowerStr s) "www.www." = false) :
    stripWWW (stripWWW (toLowerStr s)) = stripWWW (toLowerStr s) := by
  set L := toLowerStr s with hL
  unfold stripWWW
  by_cases h : jsStartsWith L "www." = true
  · simp only [h, if_pos]
    have hp : "www.".data <+: L.data := by
      have := h
      unfold jsStartsWith at this
      exact List.isPrefixOf_iff_prefix.mp this
    obtain ⟨t, ht⟩ := hp
    have hdrop : (jsDropStr L 4).data = t := by
      unfold jsDropStr
      show L.data.drop 4 = t
      rw [← ht]
      have h4 : ("www.".data).length = 4 := by decide
      rw [show (4 : Nat) = ("www.".data).length from h4.symm]
      exact List.drop_left _ _
    have hnp : jsStartsWith (jsDropStr L 4) "www." = false := by
      by_contra hcon
      have hcon' : jsStartsWith (jsDropStr L 4) "www." = true := by
        revert hcon; cases jsStartsWith (jsDropStr L 4) "www." <;> simp
      have hpre : "www.".data <+: t := by
        have := hcon'
        unfold jsStartsWith at this
        rw [hdrop] at this
        exact List.isPrefixOf_iff_prefix.mp this
      obtain ⟨t2, ht2⟩ := hpre
      have : "www.www.".data <+: L.data := by
        refine ⟨t2, ?_⟩
        rw [← ht, ← ht2, ← List.append_assoc]
        have hww : "www.".data ++ "www.".data = "www.www.".data := by decide
        rw [hww]
      have : jsStartsWith L "www.www." = true := by
        unfold jsStartsWith
        exact List.isPrefixOf_iff_prefix.mpr this
      rw [hw] at this
      exact Bool.false_ne_true this
    simp only [hnp, Bool.false_eq_true, if_neg, not_false_eq_true]
  · have h' : jsStartsWith L "www." = false := by
      revert h; cases jsStartsWith L "www." <;> simp
    simp only [h', Bool.false_eq_true, if_neg, not_false_eq_true]

/-- C10 amended: `normalizeDomain` is idempotent on every host whose lower-cased
form does not begin with a doubled `www.www.` prefix (the counterexample family);
in particular it is idempotent on all ordinary single-`www` or bare hosts. -/
theorem normalizeDomain_idempotent_of_single_www (h : String)
    (hw : jsStartsWith (toLowerStr h) "www.www." = false) :
    normalizeDomain (normalizeDomain h) = normalizeDomain h := by
  by_cases h0 : h = ""
  · subst h0; rfl
  · have hy : normalizeDomain h = collapseKnown (stripWWW (toLowerStr h)) := by
      unfold normalizeDomain; rw [if_neg h0]
    set z := stripWWW (toLowerStr h) with hz
    rw [hy]
    by_cases e1 : jsEndsWith z ".indiatimes.com" = true
    · have hc : collapseKnown z = "indiatimes.com" := by
        unfold collapseKnown; rw [if_pos e1]
      rw [hc]; decide
    · by_cases e2 : jsEndsWith z ".thehindu.com" = true
      · have hc : collapseKnown z = "thehindu.com" := by
          unfold collapseKnown; rw [if_neg e1, if_pos e2]
        rw [hc]; decide
      · by_cases e3 : jsEndsWith z ".indianexpress.com" = true
        · have hc : collapseKnown z = "indianexpress.com" := by
            unfold collapseKnown; rw [if_neg e1, if_neg e2, if_pos e3]
          rw [hc]; decide
        · have hc : collapseKnown z = z := by
            unfold collapseKnown; rw [if_neg e1, if_neg e2, if_neg e3]
          rw [hc]
          -- the result is the stripped lower-cased host `z`; show it is a fixed point
          by_cases z0 : z = ""
          · rw [z0]; rfl
          · have hlow : toLowerStr z = z := by rw [hz]; exact toLowerStr_stripWWW_lowered h
            have hstrip : stripWWW z = z := by rw [hz]; exact stripWWW_stripWWW h hw
            unfold normalizeDomain
            rw [if_neg z0, hlow, hstrip, hc]

/-- Witness for the amended C10 theorem at a concrete host. -/
theorem normalizeDomain_idempotent_witness :
    jsStartsWith (toLowerStr "www.Example.COM") "www.www." = false
      ∧ normalizeDomain (normalizeDomain "www.Example.COM")
          = normalizeDomain "www.Example.COM" :=
  ⟨by decide, normalizeDomain_idempotent_of_single_www "www.Example.COM" (by decide)⟩

/-! ## Relevance scoring (claims C5 and C8)

Embedded from the linear selection path of `processOneTweet`: the three keyword
arrays are transcribed verbatim from the source; the score accumulates +3 per
high-priority entry found, +0.5 per economy entry found, and +1 per remaining
master-list entry found (membership tested by case-insensitive substring on the
lower-cased body), then a media bonus of +5 (video) or +3 (image), then minus an
optional diversity penalty. -/

def keywords : List String := [
  "constitution", "constitutional", "amendment", "fundamental rights", "directive principles",
  "dpsp", "preamble", "parliament", "president", "prime minister", "cabinet", "governor", "chief minister",
  "supreme court", "high court", "judiciary", "election commission", "cag", "attorney general",
  "niti aayog", "finance commission", "panchayat", "municipality", "federalism", "union", "state government",
  "central government", "legislature", "executive", "judicial review", "public interest litigation",
  "panchayati raj", "lok sabha", "rajya sabha", "bicameral", "unicameral", "ordinance", "bill",
  "act", "law", "governance", "civil services", "upsc", "ias", "ips", "ifs", "gdp", "inflation",
  "fiscal deficit", "current account deficit", "monetary policy", "repo rate", "reverse repo",
  "rbi", "banking", "npas", "gst", "tax", "budget", "economic survey", "niti aayog", "planning commission",
  "msme", "startup", "disinvestment", "privatization", "public sector", "subsidy", "poverty",
  "unemployment", "employment", "labour", "agriculture", "farmer", "crop", "minimum support price",
  "msme", "industry", "manufacturing", "service sector", "exports", "imports", "trade deficit",
  "balance of payments", "fdi", "fii", "stock market", "sebi", "bank", "insurance", "microfinance",
  "financial inclusion", "direct benefit transfer", "dbt", "aadhar", "jan dhan", "demonetisation",
  "black money", "income tax", "corporate tax", "customs duty", "excise duty", "public finance",
  "wto", "imf", "world bank", "brics", "g20", "environment", "ecology", "biodiversity", "conservation",
  "wildlife", "forest", "climate change", "global warming", "carbon emission", "cop", "unfccc",
  "ipcc", "paris agreement", "ozone", "pollution", "air quality", "water conservation", "afforestation",
  "deforestation", "project tiger", "project elephant", "biosphere reserve", "national park",
  "wildlife sanctuary", "ramsar", "wetland", "mangrove", "coral reef", "ganga", "yamuna", "river",
  "clean energy", "renewable energy", "solar", "wind energy", "hydro power", "environmental impact assessment",
  "eia", "green tribunal", "ngt", "environment ministry", "moefcc", "isro", "drdo", "space",
  "satellite", "mission", "mars", "moon", "chandrayaan", "gaganyaan", "nuclear", "missile", "defence",
  "technology", "innovation", "digital india", "artificial intelligence", "ai", "machine learning",
  "robotics", "biotechnology", "genome", "dna", "vaccine", "covid", "pandemic", "health", "disease",
  "medicine", "pharma", "research", "patent", "intellectual property", "cyber", "internet", "data protection",
  "privacy", "it act", "blockchain", "cryptocurrency", "fintech", "startups", "united nations",
  "un", "security council", "imf", "world bank", "wto", "brics", "saarc", "asean", "g20", "g7",
  "bilateral", "multilateral", "treaty", "agreement", "summit", "foreign policy", "diplomacy",
  "border", "china", "pakistan", "usa", "russia", "nepal", "bangladesh", "sri lanka", "maldives",
  "afghanistan", "iran", "trade deal", "fta", "strategic partnership", "defence cooperation",
  "aid", "development assistance", "poverty", "inequality", "gender", "women", "child", "education",
  "literacy", "school", "university", "reservation", "caste", "tribe", "sc", "st", "obc", "minority",
  "disability", "health", "malnutrition", "sanitation", "swachh bharat", "ayushman bharat", "mid day meal",
  "beti bachao", "ujjwala", "social justice", "social welfare", "ngo", "civil society", "human rights",
  "child rights", "women rights", "transgender", "old age", "pension", "employment guarantee",
  "mgnrega", "skill india", "digital literacy", "financial inclusion", "urbanization", "slum",
  "housing", "pradhan mantri awas yojana", "pmay", "smart cities", "urban development", "rural development",
  "gram panchayat", "self help group", "shg", "scheme", "yojana", "mission", "initiative", "pradhan mantri",
  "pm", "jan dhan", "aadhar", "ujjwala", "mudra", "startup india", "standup india", "swachh bharat",
  "ayushman bharat", "digital india", "make in india", "skill india", "beti bachao", "beti padhao",
  "pm kisan", "pmjay", "pmay", "mgnrega", "mid day meal", "rte", "right to education", "right to information",
  "rti", "right to food", "right to health", "insurance scheme", "crop insurance", "fasal bima",
  "pension scheme", "old age pension", "social security", "direct benefit transfer", "dbt", "public distribution system",
  "pds", "ration card", "food security", "national health mission", "nhm", "icds", "anganwadi",
  "tribal affairs", "minority affairs", "backward class", "sc", "st", "obc", "women empowerment",
  "child development", "youth affairs", "sports", "khelo india", "history", "ancient", "medieval",
  "modern", "freedom struggle", "independence", "gandhi", "nehru", "ambedkar", "subhash chandra bose",
  "bhagat singh", "reform", "renaissance", "art", "architecture", "culture", "heritage", "unesco",
  "festival", "dance", "music", "painting", "literature", "language", "archaeology", "monument",
  "temple", "mosque", "church", "buddhism", "jainism", "hinduism", "islam", "sikhism", "religion",
  "philosophy", "social reform", "women reformer", "tribal movement", "peasant movement", "dalit movement",
  "current affairs", "important", "significant", "notable", "landmark", "record", "highest",
  "lowest", "first time", "last", "new", "update", "decision", "verdict", "judgment", "order",
  "ban", "strike", "protest", "violence", "arrest", "attack", "death", "disaster", "flood", "drought",
  "earthquake", "cyclone", "epidemic", "pandemic", "outbreak", "security", "terrorism", "internal security",
  "naxal", "insurgency", "border security", "defence", "armed forces", "paramilitary", "police",
  "crime", "corruption", "scam", "investigation", "probe", "enforcement directorate", "cbi",
  "ed", "ncb", "narcotics", "money laundering", "hawala", "cyber crime", "cyber security", "data breach",
  "privacy", "right to privacy"]

def economyKeywords : List String := [
  "gdp", "inflation", "fiscal deficit", "current account deficit", "monetary policy", "repo rate",
  "reverse repo", "rbi", "banking", "npas", "gst", "tax", "budget", "economic survey", "niti aayog",
  "planning commission", "msme", "startup", "disinvestment", "privatization", "public sector",
  "subsidy", "unemployment", "employment", "labour", "industry", "manufacturing", "service sector",
  "exports", "imports", "trade deficit", "balance of payments", "fdi", "fii", "stock market",
  "sebi", "bank", "insurance", "microfinance", "financial inclusion", "direct benefit transfer",
  "dbt", "aadhar", "jan dhan", "demonetisation", "black money", "income tax", "corporate tax",
  "customs duty", "excise duty", "public finance", "wto", "imf", "world bank", "brics", "g20"]

def highPriorityKeywords : List String := [
  "supreme court", "high court", "parliament", "president", "prime minister", "cabinet", "governor",
  "chief minister", "election commission", "judiciary", "law", "governance", "civil services",
  "upsc", "ias", "ips", "ifs", "ordinance", "bill", "act", "constitution", "amendment", "public interest litigation",
  "isro", "drdo", "space", "satellite", "mission", "mars", "moon", "chandrayaan", "gaganyaan",
  "nuclear", "missile", "defence", "technology", "innovation", "digital india", "artificial intelligence",
  "ai", "machine learning", "robotics", "biotechnology", "genome", "dna", "vaccine", "covid",
  "pandemic", "health", "disease", "medicine", "pharma", "research", "patent", "cyber", "internet",
  "data protection", "privacy", "blockchain", "fintech", "environment", "ecology", "biodiversity",
  "conservation", "wildlife", "forest", "climate change", "global warming", "carbon emission",
  "cop", "unfccc", "ipcc", "paris agreement", "ozone", "pollution", "air quality", "water conservation",
  "afforestation", "deforestation", "project tiger", "project elephant", "biosphere reserve",
  "national park", "wildlife sanctuary", "ramsar", "wetland", "mangrove", "coral reef", "clean energy",
  "renewable energy", "solar", "wind energy", "hydro power", "environmental impact assessment",
  "eia", "green tribunal", "ngt", "environment ministry", "moefcc", "disaster", "flood", "drought",
  "earthquake", "cyclone", "epidemic", "pandemic", "outbreak", "security", "terrorism", "internal security",
  "naxal", "insurgency", "border security", "defence", "armed forces", "paramilitary", "police",
  "crime", "corruption", "scam", "investigation", "probe", "enforcement directorate", "cbi",
  "ed", "ncb", "narcotics", "money laundering", "hawala", "cyber crime", "cyber security", "data breach",
  "privacy", "right to privacy", "important", "significant", "notable", "landmark", "record",
  "highest", "lowest", "first time", "verdict", "judgment", "order", "ban", "strike", "protest",
  "violence", "arrest", "attack", "death"]

/-- The keyword portion of the score loop (`score += 3 / 0.5 / 1` per matching
list entry, in source order). -/
def keywordScore (content : String) : ℚ :=
  let lowerContent := toLowerStr content
  let s1 := highPriorityKeywords.foldl
    (fun acc kw => if jsIncludes lowerContent kw then acc + 3 else acc) 0
  let s2 := economyKeywords.foldl
    (fun acc kw => if jsIncludes lowerContent kw then acc + 1/2 else acc) s1
  keywords.foldl
    (fun acc kw =>
      if !highPriorityKeywords.contains kw && !economyKeywords.contains kw
          && jsIncludes lowerContent kw then acc + 1 else acc) s2

inductive MediaKind where
  | image : MediaKind
  | video : MediaKind
deriving DecidableEq

structure MediaRef where
  kind : MediaKind
  url : String
deriving DecidableEq

/-- `if (media.type === 'video') score += 5; else if (media.type === 'image') score += 3;` -/
def mediaBonus : Option MediaRef → ℚ
  | none => 0
  | some m => if m.kind = MediaKind.video then 5 else if m.kind = MediaKind.image then 3 else 0

/-- Total score of one candidate on the linear path: keyword score, plus media
bonus, minus the (media-independent) diversity penalty. -/
def articleScore (content : String) (media : Option MediaRef) (penalty : ℚ) : ℚ :=
  keywordScore content + mediaBonus media - penalty

/-- Modelled from the claim C5 wording: each phrase (each distinct string) of a
class contributes its class weight exactly once when it occurs in the body,
regardless of repetition; occurring distinct phrases are counted by filtering a
class list and deduplicating. -/
def claimKeywordScore (content : String) : ℚ :=
  let lowerContent := toLowerStr content
  3 * (((highPriorityKeywords.filter (fun kw => jsIncludes lowerContent kw)).dedup).length : ℚ)
    + (1/2) * (((economyKeywords.filter (fun kw => jsIncludes lowerContent kw)).dedup).length : ℚ)
    + (((keywords.filter (fun kw =>
          !highPriorityKeywords.contains kw && !economyKeywords.contains kw
            && jsIncludes lowerContent kw)).dedup).length : ℚ)

/-- A weight-accumulating fold equals the initial value plus the weight times the
number of matching entries. -/
theorem foldl_weight (w : ℚ) (p : String → Bool) :
    ∀ (l : List String) (init : ℚ),
      l.foldl (fun acc kw => if p kw then acc + w else acc) init
        = init + w * ((l.filter p).length : ℚ) := by
  intro l
  induction l with
  | nil => intro init; simp
  | cons a t ih =>
    intro init
    by_cases h : p a = true
    · simp only [List.foldl_cons, List.filter_cons, h, if_pos, ih, List.length_cons]
      push_cast
      ring
    · have h' : p a = false := by revert h; cases p a <;> simp
      simp only [List.foldl_cons, List.filter_cons, h', if_neg, Bool.false_eq_true,
        not_false_eq_true, ih]

/-- Shared helper: the accumulating keyword loops equal a closed-form count, one
contribution per list entry (so a phrase listed twice contributes twice). -/
theorem keywordScore_counts (content : String) :
    keywordScore content =
      3 * ((highPriorityKeywords.filter
              (fun kw => jsIncludes (toLowerStr content) kw)).length : ℚ)
        + (1/2) * ((economyKeywords.filter
              (fun kw => jsIncludes (toLowerStr content) kw)).length : ℚ)
        + ((keywords.filter (fun kw =>
              !highPriorityKeywords.contains kw && !economyKeywords.contains kw
                && jsIncludes (toLowerStr content) kw)).length : ℚ) := by
  unfold keywordScore
  simp only [foldl_weight]
  ring

set_option maxRecDepth 200000 in
set_option maxHeartbeats 1600000 in
/-- C5 counterexample: on the body `"defence"` the code's keyword score is 6, because
the phrase `defence` is listed twice in the high-priority class, while the claimed
once-per-phrase score is 3; so a phrase does not contribute its class weight exactly
once. -/
theorem keywordScore_defence_counterexample :
    keywordScore "defence" = 6 ∧ claimKeywordScore "defence" = 3
      ∧ keywordScore "defence" ≠ claimKeywordScore "defence" := by
  have h1 : highPriorityKeywords.filter (fun kw => jsIncludes (toLowerStr "defence") kw)
      = ["defence", "defence"] := by decide
  have h2 : economyKeywords.filter (fun kw => jsIncludes (toLowerStr "defence") kw)
      = [] := by decide
  have h3 : keywords.filter (fun kw =>
      !highPriorityKeywords.contains kw && !economyKeywords.contains kw
        && jsIncludes (toLowerStr "defence") kw) = [] := by
    have hpt : ∀ kw ∈ keywords,
        (!highPriorityKeywords.contains kw && !economyKeywords.contains kw
            && jsIncludes (toLowerStr "defence") kw)
          = ((!highPriorityKeywords.contains kw && !economyKeywords.contains kw)
              && jsIncludes (toLowerStr "defence") kw) := by
      intro kw _
      cases highPriorityKeywords.contains kw <;> cases economyKeywords.contains kw
        <;> cases jsIncludes (toLowerStr "defence") kw <;> rfl
    rw [List.filter_congr hpt, ← List.filter_filter]
    have hincl : keywords.filter (fun kw => jsIncludes (toLowerStr "defence") kw)
        = ["defence", "defence"] := by decide
    rw [hincl]
    decide
  have hcode : keywordScore "defence" = 6 := by
    rw [keywordScore_counts, h1, h2, h3]
    norm_num
  have hclaim : claimKeywordScore "defence" = 3 := by
    unfold claimKeywordScore
    simp only [h1, h2, h3]
    norm_num
  exact ⟨hcode, hclaim, by rw [hcode, hclaim]; norm_num⟩

/-- C5 amended: each listed phrase contributes its class weight once per occurrence
in its class list (so the duplicated high-priority entries `defence`, `pandemic` and
`privacy` contribute twice); with that reading, the score is exactly the weighted
count 3·(high matches) + 0.5·(economy matches) + 1·(remaining master-list matches),
matched case-insensitively as substrings of the body, regardless of how often a
phrase repeats inside the body. -/
theorem keywordScore_per_listing (content : String) :
    keywordScore content =
      3 * ((highPriorityKeywords.filter
              (fun kw => jsIncludes (toLowerStr content) kw)).length : ℚ)
        + (1/2) * ((economyKeywords.filter
              (fun kw => jsIncludes (toLowerStr content) kw)).length : ℚ)
        + ((keywords.filter (fun kw =>
              !highPriorityKeywords.contains kw && !economyKeywords.contains kw
                && jsIncludes (toLowerStr content) kw)).length : ℚ) :=
  keywordScore_counts content

/-- C8: the media bonus is +5 for video, +3 for image, +0 for no media, so for
otherwise identical candidates the video variant strictly outscores the image
variant, which strictly outscores the text-only variant. -/
theorem mediaBonus_monotone (content : String) (penalty : ℚ) (u v : String) :
    articleScore content (some ⟨MediaKind.video, u⟩) penalty
        = articleScore content none penalty + 5
      ∧ articleScore content (some ⟨MediaKind.image, v⟩) penalty
        = articleScore content none penalty + 3
      ∧ articleScore content none penalty
          < articleScore content (some ⟨MediaKind.image, v⟩) penalty
      ∧ articleScore content (some ⟨MediaKind.image, v⟩) penalty
          < articleScore content (some ⟨MediaKind.video, u⟩) penalty := by
  have hvid : mediaBonus (some ⟨MediaKind.video, u⟩) = 5 := by simp [mediaBonus]
  have himg : mediaBonus (some ⟨MediaKind.image, v⟩) = 3 := by simp [mediaBonus]
  have hnone : mediaBonus none = 0 := rfl
  unfold articleScore
  rw [hvid, himg, hnone]
  refine ⟨by ring, by ring, by linarith, by linarith⟩

/-! ## Trial-queue ordering (claim C6)

Embedded from the `scoredArticles.sort` comparator: first descending score, then
(on score ties) descending media priority (video 3 > image 2 > text-only 0).
JavaScript `Array.prototype.sort` is stable (ECMAScript 2019), so the sort is
modelled by the stable `List.mergeSort` with the relation `a` may precede `b`
exactly when the comparator returns a nonpositive value on `(a, b)`. -/

structure ScoredArticle where
  item : Nat
  score : ℚ
  media : Option MediaRef
  domain : Option String
deriving DecidableEq

/-- `getMediaPriority` from the sort comparator. -/
def getMediaPriority : Option MediaRef → Nat
  | none => 0
  | some m => if m.kind = MediaKind.video then 3 else if m.kind = MediaKind.image then 2 else 1

/-- `comparator(a, b) ≤ 0`: `a` may be placed before `b`. -/
def scoredLE (a b : ScoredArticle) : Bool :=
  if a.score = b.score then decide (getMediaPriority b.media ≤ getMediaPriority a.media)
  else decide (b.score < a.score)

/-- The selection sort of the scored candidate list. -/
def sortScored (l : List ScoredArticle) : List ScoredArticle := l.mergeSort scoredLE

theorem scoredLE_iff (a b : ScoredArticle) :
    scoredLE a b = true
      ↔ (b.score < a.score
          ∨ (a.score = b.score ∧ getMediaPriority b.media ≤ getMediaPriority a.media)) := by
  unfold scoredLE
  by_cases h : a.score = b.score
  · simp [h]
  · simp [h]

theorem scoredLE_total (a b : ScoredArticle) : scoredLE a b || scoredLE b a := by
  rcases lt_trichotomy a.score b.score with h | h | h
  · have hb : scoredLE b a = true := (scoredLE_iff b a).mpr (Or.inl h)
    simp [hb]
  · rcases Nat.le_total (getMediaPriority b.media) (getMediaPriority a.media) with hp | hp
    · have ha : scoredLE a b = true := (scoredLE_iff a b).mpr (Or.inr ⟨h, hp⟩)
      simp [ha]
    · have hb : scoredLE b a = true := (scoredLE_iff b a).mpr (Or.inr ⟨h.symm, hp⟩)
      simp [hb]
  · have ha : scoredLE a b = true := (scoredLE_iff a b).mpr (Or.inl h)
    simp [ha]

theorem scoredLE_trans (a b c : ScoredArticle) :
    scoredLE a b → scoredLE b c → scoredLE a c := by
  intro hab hbc
  rw [scoredLE_iff] at hab hbc ⊢
  rcases hab with h1 | ⟨h1, p1⟩ <;> rcases hbc with h2 | ⟨h2, p2⟩
  · exact Or.inl (lt_trans h2 h1)
  · exact Or.inl (h2 ▸ h1)
  · exact Or.inl (h1 ▸ h2)
  · exact Or.inr ⟨h1.trans h2, le_trans p2 p1⟩

/-- C6: on any fixed list of scored candidates the trial-queue ordering is a
permutation of the input that is descending in score, breaks score ties by media
priority (video over image over none), preserves the original discovery order of
comparator-tied candidates (stability), and is deterministic: re-evaluating the
selector on the same input yields the identical ordering. -/
theorem sortScored_ordering (xs : List ScoredArticle) :
    (sortScored xs).Perm xs
      ∧ (sortScored xs).Pairwise (fun a b =>
          b.score < a.score
            ∨ (a.score = b.score ∧ getMediaPriority b.media ≤ getMediaPriority a.media))
      ∧ (∀ a b, scoredLE a b → List.Sublist [a, b] xs → List.Sublist [a, b] (sortScored xs))
      ∧ sortScored xs = sortScored xs := by
  refine ⟨List.mergeSort_perm xs scoredLE, ?_, ?_, rfl⟩
  · have hs := @List.sorted_mergeSort ScoredArticle scoredLE
      (fun a b c => scoredLE_trans a b c) scoredLE_total xs
    exact hs.imp (fun h => (scoredLE_iff _ _).mp h)
  · intro a b hab hsub
    exact List.pair_sublist_mergeSort
      (fun a b c => scoredLE_trans a b c) scoredLE_total hab hsub

/-- Witness for C6 at a concrete two-element tie: both properties evaluate, and the
tied pair keeps its discovery order. -/
theorem sortScored_ordering_witness :
    List.Sublist [⟨0, 2, none, none⟩, ⟨1, 2, none, none⟩]
      (sortScored [⟨0, 2, none, none⟩, (⟨1, 2, none, none⟩ : ScoredArticle)]) :=
  (sortScored_ordering [⟨0, 2, none, none⟩, ⟨1, 2, none, none⟩]).2.2.1
    ⟨0, 2, none, none⟩ ⟨1, 2, none, none⟩ (by decide) (List.Sublist.refl _)

/-! ## Anti-dominance filtering (claim C7)

Embedded from `filterCandidatesByDominance`: a first pass applies, in source
order, the no-consecutive-domain rule, the no-consecutive-feed rule, the
minimum-unique-domains-window rule and the maximum-domain-share rule; if it
leaves nothing, a second pass drops only the minimum-unique-domains rule
(checking share, then consecutive domain, then consecutive feed); if that also
leaves nothing the unfiltered list is returned.  The module state the source
reads (`counts`/`total` of the share lookback, `lastDomain`, `lastFeedSource`,
the recent-window domain set and the configuration flags) is passed as an
explicit environment. -/

structure DomCandidate where
  item : Nat
  domain : Option String
  feedSource : Option String
deriving DecidableEq

structure DomEnv where
  noConsecutiveDomain : Bool
  noConsecutiveFeed : Bool
  minUniqueDomainsWindow : Nat
  maxDomainShare : ℚ
  lastDomain : Option String
  lastFeedSource : Option String
  recentSet : List String
  counts : List (String × Nat)
  total : Nat

/-- `counts[d] || 0`. -/
def lookupCount : List (String × Nat) → String → Nat
  | [], _ => 0
  | (k, v) :: rest, d => if d = k then v else lookupCount rest d

/-- `NO_CONSECUTIVE_FEED && lastFeedSource && feedSrc && feedSrc === lastFeedSource`
without the leading flag. -/
def feedClash (env : DomEnv) (c : DomCandidate) : Bool :=
  match env.lastFeedSource, c.feedSource with
  | some lf, some f => f == lf
  | _, _ => false

/-- `MIN_UNIQUE_DOMAINS_WINDOW > 0 && recentSet.size < MIN_UNIQUE_DOMAINS_WINDOW`. -/
def needNewDomain (env : DomEnv) : Bool :=
  decide (0 < env.minUniqueDomainsWindow)
    && decide (env.recentSet.length < env.minUniqueDomainsWindow)

/-- `curShare > MAX_DOMAIN_SHARE` for an enabled share rule. -/
def shareExceeded (env : DomEnv) (d : String) : Bool :=
  decide (0 < env.maxDomainShare) && decide (0 < env.total)
    && decide (env.maxDomainShare < (lookupCount env.counts d : ℚ) / (env.total : ℚ))

/-- The first (full) filter predicate of `filterCandidatesByDominance`. -/
def passFull (env : DomEnv) (c : DomCandidate) : Bool :=
  match c.domain with
  | none => true
  | some d =>
    if env.noConsecutiveDomain && (env.lastDomain == some d) then false
    else if env.noConsecutiveFeed && feedClash env c then false
    else if needNewDomain env && env.recentSet.contains d then false
    else if shareExceeded env d then false
    else true

/-- The relaxed second-pass predicate (share, then consecutive domain, then
consecutive feed; the uniqueness rule is dropped). -/
def passRelaxed (env : DomEnv) (c : DomCandidate) : Bool :=
  match c.domain with
  | none => true
  | some d =>
    if shareExceeded env d then false
    else if env.noConsecutiveDomain && (env.lastDomain == some d) then false
    else if env.noConsecutiveFeed && feedClash env c then false
    else true

def filterCandidatesByDominance (env : DomEnv) (candidates : List DomCandidate) :
    List DomCandidate :=
  if candidates.isEmpty then candidates
  else
    let f1 := candidates.filter (passFull env)
    let f2 := if f1.isEmpty then candidates.filter (passRelaxed env) else f1
    if f2.isEmpty then candidates else f2

/-- One rule set of the claim's cascade, with each rule individually switchable.
`useA` is the no-consecutive-domain rule, `useB` no-consecutive-feed, `useC` the
minimum-unique-domains window, `useD` the maximum domain share. -/
def passRules (env : DomEnv) (useA useB useC useD : Bool) (c : DomCandidate) : Bool :=
  match c.domain with
  | none => true
  | some d =>
    if useA && env.noConsecutiveDomain && (env.lastDomain == some d) then false
    else if useB && env.noConsecutiveFeed && feedClash env c then false
    else if useC && needNewDomain env && env.recentSet.contains d then false
    else if useD && shareExceeded env d then false
    else true

/-- Modelled from the claim C7 wording: apply the enabled dominance rules; if the
result is empty, relax rules one at a time in reverse precedence order (share
first, then window, then feed, then domain) until at least one candidate remains;
if all relaxations still yield nothing return the unfiltered list. -/
def claimRelaxCascade (env : DomEnv) (cands : List DomCandidate) : List DomCandidate :=
  let t0 := cands.filter (passRules env true true true true)
  if ¬t0.isEmpty then t0
  else
    let t1 := cands.filter (passRules env true true true false)
    if ¬t1.isEmpty then t1
    else
      let t2 := cands.filter (passRules env true true false false)
      if ¬t2.isEmpty then t2
      else
        let t3 := cands.filter (passRules env true false false false)
        if ¬t3.isEmpty then t3 else cands

/-- Environment of the C7 counterexample: only the no-consecutive-domain and the
max-share rules are active; domain `x.com` holds the full recent share and
`y.com` was the immediately preceding publish. -/
def envC7 : DomEnv :=
  ⟨true, false, 0, 1/2, some "y.com", none, [], [("x.com", 2)], 2⟩

/-- C7 counterexample: with candidate X (share-violating only) and candidate Y
(consecutive-domain-violating only), the code's two-stage fallback returns the
whole unfiltered list `[X, Y]`, while relaxing rules in reverse precedence order
as the claim states would stop after dropping the share rule and return `[X]`. -/
theorem filterCandidatesByDominance_not_reverse_precedence :
    filterCandidatesByDominance envC7 [⟨0, some "x.com", none⟩, ⟨1, some "y.com", none⟩]
        = [⟨0, some "x.com", none⟩, ⟨1, some "y.com", none⟩]
      ∧ claimRelaxCascade envC7 [⟨0, some "x.com", none⟩, ⟨1, some "y.com", none⟩]
        = [⟨0, some "x.com", none⟩]
      ∧ ([⟨0, some "x.com", none⟩, ⟨1, some "y.com", none⟩] : List DomCandidate)
        ≠ [⟨0, some "x.com", none⟩] := by
  have hsx : shareExceeded envC7 "x.com" = true := by
    simp only [shareExceeded, envC7, lookupCount]
    norm_num
  have hsy : shareExceeded envC7 "y.com" = false := by
    simp only [shareExceeded, envC7, lookupCount]
    rw [if_neg (by decide : ¬("y.com" : String) = "x.com")]
    norm_num
  have pfx : passFull envC7 ⟨0, some "x.com", none⟩ = false := by
    simp only [passFull, hsx]
    decide
  have pfy : passFull envC7 ⟨1, some "y.com", none⟩ = false := by decide
  have prx : passRelaxed envC7 ⟨0, some "x.com", none⟩ = false := by
    simp only [passRelaxed, hsx]
    decide
  have pry : passRelaxed envC7 ⟨1, some "y.com", none⟩ = false := by
    simp only [passRelaxed, hsy]
    decide
  have p0x : passRules envC7 true true true true ⟨0, some "x.com", none⟩ = false := by
    simp only [passRules, hsx]
    decide
  have p0y : passRules envC7 true true true true ⟨1, some "y.com", none⟩ = false := by decide
  have p1x : passRules envC7 true true true false ⟨0, some "x.com", none⟩ = true := by decide
  have p1y : passRules envC7 true true true false ⟨1, some "y.com", none⟩ = false := by decide
  have f1 : List.filter (passFull envC7)
      [⟨0, some "x.com", none⟩, ⟨1, some "y.com", none⟩] = [] := by
    simp [List.filter_cons, pfx, pfy]
  have f2 : List.filter (passRelaxed envC7)
      [⟨0, some "x.com", none⟩, ⟨1, some "y.com", none⟩] = [] := by
    simp [List.filter_cons, prx, pry]
  have t0 : List.filter (passRules envC7 true true true true)
      [⟨0, some "x.com", none⟩, ⟨1, some "y.com", none⟩] = [] := by
    simp [List.filter_cons, p0x, p0y]
  have t1 : List.filter (passRules envC7 true true true false)
      [⟨0, some "x.com", none⟩, ⟨1, some "y.com", none⟩] = [⟨0, some "x.com", none⟩] := by
    simp [List.filter_cons, p1x, p1y]
  refine ⟨?_, ?_, by decide⟩
  · unfold filterCandidatesByDominance
    simp [f1, f2]
  · unfold claimRelaxCascade
    simp [t0, t1]

/-- C7 amended: for every non-empty candidate list the filter returns a non-empty
list; if the full rule set eliminates every candidate the code retries once with
the minimum-unique-domains rule dropped (share and consecutive-domain/feed still
enforced), and if that relaxation also eliminates every candidate the unfiltered
list is returned. -/
theorem filterCandidatesByDominance_nonempty (env : DomEnv) (cands : List DomCandidate)
    (h : cands ≠ []) :
    filterCandidatesByDominance env cands ≠ []
      ∧ (cands.filter (passFull env) ≠ [] →
          filterCandidatesByDominance env cands = cands.filter (passFull env))
      ∧ (cands.filter (passFull env) = [] → cands.filter (passRelaxed env) ≠ [] →
          filterCandidatesByDominance env cands = cands.filter (passRelaxed env))
      ∧ (cands.filter (passFull env) = [] → cands.filter (passRelaxed env) = [] →
          filterCandidatesByDominance env cands = cands) := by
  have hne : cands.isEmpty = false := by
    cases cands with
    | nil => exact absurd rfl h
    | cons a t => rfl
  have step : filterCandidatesByDominance env cands
      = if (cands.filter (passFull env)).isEmpty
          then (if (cands.filter (passRelaxed env)).isEmpty then cands
                else cands.filter (passRelaxed env))
          else cands.filter (passFull env) := by
    unfold filterCandidatesByDominance
    rw [if_neg (by rw [hne]; exact Bool.false_ne_true)]
    by_cases h1 : (cands.filter (passFull env)).isEmpty = true
    · simp only [h1, if_true]
    · have h1' : (cands.filter (passFull env)).isEmpty = false := by
        revert h1; cases (cands.filter (passFull env)).isEmpty <;> simp
      simp only [h1', Bool.false_eq_true, if_false]
  refine ⟨?_, ?_, ?_, ?_⟩
  · rw [step]
    by_cases h1 : (cands.filter (passFull env)).isEmpty = true
    · rw [if_pos h1]
      by_cases h2 : (cands.filter (passRelaxed env)).isEmpty = true
      · rw [if_pos h2]; exact h
      · rw [if_neg h2]
        exact fun hc => h2 (List.isEmpty_iff.mpr hc)
    · rw [if_neg h1]
      exact fun hc => h1 (List.isEmpty_iff.mpr hc)
  · intro hf
    rw [step, if_neg (fun h1 => hf (List.isEmpty_iff.mp h1))]
  · intro hf1 hf2
    rw [step, if_pos (List.isEmpty_iff.mpr hf1),
      if_neg (fun h2 => hf2 (List.isEmpty_iff.mp h2))]
  · intro hf1 hf2
    rw [step, if_pos (List.isEmpty_iff.mpr hf1), if_pos (List.isEmpty_iff.mpr hf2)]

/-- Witness for the amended C7 theorem at a concrete non-empty candidate list. -/
theorem filterCandidatesByDominance_nonempty_witness :
    filterCandidatesByDominance envC7 [⟨2, some "z.com", none⟩] ≠ [] :=
  (filterCandidatesByDominance_nonempty envC7 [⟨2, some "z.com", none⟩] (by decide)).1

/-! ## `generateStrictLengthSummary` (claims C2 and C4)

Embedded from the source:
```
let summary = response.data.candidates[0].content.parts[0].text;
if (summary.length < MIN_SUMMARY_LENGTH) {
  return await generateStrictLengthSummary(content);
}
if (summary.length > MAX_SUMMARY_LENGTH) {
  summary = summary.substring(0, MAX_SUMMARY_LENGTH - 3) + '...';
}
return summary;
```
with `MIN_SUMMARY_LENGTH = 240` and `MAX_SUMMARY_LENGTH = 280`; a thrown API error
is caught and `null` is returned.  The generative service is an oracle assigning
to each request index either `none` (the request throws) or `some text`.  Because
the under-length branch re-invokes the function with no attempt counter, the
recursion is modelled with an explicit `fuel` bound on the number of unfolded
requests: an outer `none` result means the real recursion issues more than `fuel`
requests (it has not returned within that budget). -/

def MIN_SUMMARY_LENGTH : Nat := 240

def MAX_SUMMARY_LENGTH : Nat := 280

/-- `summary.substring(0, MAX_SUMMARY_LENGTH - 3) + '...'`. -/
def truncateWithEllipsis (s : String) : String :=
  jsTakeStr s (MAX_SUMMARY_LENGTH - 3) ++ "..."

def generateStrictLengthSummary (oracle : Nat → Option String) :
    Nat → Nat → Option (Option String)
  | _, 0 => none
  | idx, fuel + 1 =>
    match oracle idx with
    | none => some none
    | some summary =>
      if summary.length < MIN_SUMMARY_LENGTH then
        generateStrictLengthSummary oracle (idx + 1) fuel
      else if MAX_SUMMARY_LENGTH < summary.length then
        some (some (truncateWithEllipsis summary))
      else some (some summary)

/-- Number of summarization requests issued within the `fuel` budget. -/
def generateRequests (oracle : Nat → Option String) : Nat → Nat → Nat
  | _, 0 => 0
  | idx, fuel + 1 =>
    match oracle idx with
    | none => 1
    | some summary =>
      if summary.length < MIN_SUMMARY_LENGTH then
        1 + generateRequests oracle (idx + 1) fuel
      else 1

/-- A generative service that answers every request with an under-length text. -/
def shortGemini : Nat → Option String := fun _ => some "Too short."

/-- C2: against a summarizer that persistently returns under-240-character text,
the regeneration recursion never returns within any finite request budget, and it
consumes its entire budget issuing new requests — the retry is unbounded, not
bounded as claimed (the source re-invokes itself with no attempt counter). -/
theorem generateStrictLengthSummary_unbounded (fuel idx : Nat) :
    generateStrictLengthSummary shortGemini idx fuel = none
      ∧ generateRequests shortGemini idx fuel = fuel := by
  induction fuel generalizing idx with
  | zero => exact ⟨rfl, rfl⟩
  | succ n ih =>
    have hshort : ("Too short." : String).length < MIN_SUMMARY_LENGTH := by decide
    constructor
    · show (if ("Too short." : String).length < MIN_SUMMARY_LENGTH then
          generateStrictLengthSummary shortGemini (idx + 1) n
        else if MAX_SUMMARY_LENGTH < ("Too short." : String).length then
          some (some (truncateWithEllipsis "Too short."))
        else some (some "Too short.")) = none
      rw [if_pos hshort]
      exact (ih (idx + 1)).1
    · show (if ("Too short." : String).length < MIN_SUMMARY_LENGTH then
          1 + generateRequests shortGemini (idx + 1) n else 1) = n + 1
      rw [if_pos hshort, (ih (idx + 1)).2]
      omega

theorem jsTakeStr_length (s : String) (n : Nat) :
    (jsTakeStr s n).length = min n s.length := by
  show (s.data.take n).length = min n s.data.length
  exact List.length_take n s.data

theorem truncateWithEllipsis_length (s : String) (h : 277 ≤ s.length) :
    (truncateWithEllipsis s).length = 280 := by
  show ((jsTakeStr s 277).data ++ ("..." : String).data).length = 280
  rw [List.length_append]
  show (s.data.take 277).length + ("..." : String).data.length = 280
  rw [List.length_take]
  have h2 : ("..." : String).data.length = 3 := rfl
  have h3 : s.length = s.data.length := rfl
  rw [h2, Nat.min_eq_left (by omega)]

/-- Every summary actually returned by the generator is at most 280 characters. -/
theorem generateStrictLengthSummary_le_280 :
    ∀ (fuel idx : Nat) (oracle : Nat → Option String) (s : String),
      generateStrictLengthSummary oracle idx fuel = some (some s) → s.length ≤ 280 := by
  intro fuel
  induction fuel with
  | zero => intro idx oracle s h; exact absurd h (by simp [generateStrictLengthSummary])
  | succ n ih =>
    intro idx oracle s h
    unfold generateStrictLengthSummary at h
    cases horacle : oracle idx with
    | none => rw [horacle] at h; simp at h
    | some r =>
      rw [horacle] at h
      have h' : (if r.length < MIN_SUMMARY_LENGTH then
            generateStrictLengthSummary oracle (idx + 1) n
          else if MAX_SUMMARY_LENGTH < r.length then some (some (truncateWithEllipsis r))
          else some (some r)) = some (some s) := h
      by_cases hshort : r.length < MIN_SUMMARY_LENGTH
      · rw [if_pos hshort] at h'
        exact ih (idx + 1) oracle s h'
      · rw [if_neg hshort] at h'
        by_cases hlong : MAX_SUMMARY_LENGTH < r.length
        · rw [if_pos hlong] at h'
          simp only [Option.some.injEq] at h'
          have h277 : 277 ≤ r.length := by
            unfold MAX_SUMMARY_LENGTH at hlong; omega
          rw [← h', truncateWithEllipsis_length r h277]
        · rw [if_neg hlong] at h'
          simp only [Option.some.injEq] at h'
          subst h'
          unfold MAX_SUMMARY_LENGTH at hlong
          omega

/-! ## The publication gate (claims C1, C4 and C9)

Embedded from the trial loop of the linear selection path of `processOneTweet`
(for each queued candidate: resolve `item.link || item.guid`, skip when the link
is missing or already in `postedLinks`, re-check the 300-character body minimum,
request a Gemini summary, post, and on confirmed success append the link to the
store, save it, and stop), together with `loadPostedLinks`.  Each candidate
carries its resolved link, resolved body, media, its own summarizer response
stream with a request budget, and whether `postTweet` would report success.  A
candidate whose summarizer budget is exhausted (the real recursion would not
return) is modelled as skipped, which only adds behaviours and publishes nothing
extra from that candidate.  The result records what was published, the resulting
store array, and how many `savePostedLinks` calls the loop performed. -/

structure TrialCandidate where
  link : Option String
  content : Option String
  media : Option MediaRef
  gemini : Nat → Option String
  fuel : Nat
  postOk : Bool

structure GateResult where
  published : Option (String × String)
  store : List String
  writes : Nat
deriving DecidableEq

def runGateLinear (history : List String) : List TrialCandidate → GateResult
  | [] => ⟨none, history, 0⟩
  | c :: rest =>
    match c.link with
    | none => runGateLinear history rest
    | some link =>
      if history.contains link then runGateLinear history rest
      else
        match c.content with
        | none => runGateLinear history rest
        | some content =>
          if content.length < 300 then runGateLinear history rest
          else
            match generateStrictLengthSummary c.gemini 0 c.fuel with
            | none => runGateLinear history rest
            | some result =>
              match result with
              | none => runGateLinear history rest
              | some summary =>
                if c.postOk then ⟨some (link, summary), history ++ [link], 1⟩
                else runGateLinear history rest

/-- The trial loop caps its walk at the first 8 filtered candidates
(`for (let i = 0; i < Math.min(linearCandidates.length, 8); i++)`). -/
def processOneTweetLinear (history : List String) (queue : List TrialCandidate) :
    GateResult :=
  runGateLinear history (queue.take 8)

/-- `loadPostedLinks`: read the stored array into the set and the ordered array;
when the set holds more than 1000 distinct links, trim the array to its last 1000
entries and save immediately.  Returns the in-memory array and the number of file
writes performed while loading. -/
def loadPostedLinks (arr : List String) : List String × Nat :=
  if 1000 < arr.dedup.length then (arr.drop (arr.length - 1000), 1) else (arr, 0)

theorem runGateLinear_published_not_in_history (history : List String) :
    ∀ (queue : List TrialCandidate) (link s : String), link ∈ history →
      (runGateLinear history queue).published ≠ some (link, s) := by
  intro queue
  induction queue with
  | nil => intro link s hmem hcon; simp [runGateLinear] at hcon
  | cons c rest ih =>
    intro link s hmem hcon
    unfold runGateLinear at hcon
    cases hl : c.link with
    | none => simp only [hl] at hcon; exact ih link s hmem hcon
    | some l =>
      simp only [hl] at hcon
      by_cases hc : history.contains l
      · rw [if_pos hc] at hcon
        exact ih link s hmem hcon
      · rw [if_neg hc] at hcon
        cases hco : c.content with
        | none => simp only [hco] at hcon; exact ih link s hmem hcon
        | some content =>
          simp only [hco] at hcon
          by_cases hlen : content.length < 300
          · rw [if_pos hlen] at hcon; exact ih link s hmem hcon
          · rw [if_neg hlen] at hcon
            cases hg : generateStrictLengthSummary c.gemini 0 c.fuel with
            | none => simp only [hg] at hcon; exact ih link s hmem hcon
            | some og =>
              simp only [hg] at hcon
              cases og with
              | none => exact ih link s hmem hcon
              | some summary =>
                have hcon2 : (if c.postOk = true then
                      ({ published := some (l, summary), store := history ++ [l],
                         writes := 1 } : GateResult)
                    else runGateLinear history rest).published = some (link, s) := hcon
                by_cases hp : c.postOk = true
                · rw [if_pos hp] at hcon2
                  simp only [Option.some.injEq, Prod.mk.injEq] at hcon2
                  have : l = link := hcon2.1
                  subst this
                  exact hc (List.elem_iff.mpr hmem)
                · rw [if_neg hp] at hcon2; exact ih link s hmem hcon2

theorem runGateLinear_all_posted (history : List String) :
    ∀ (queue : List TrialCandidate),
      (∀ c ∈ queue, ∀ l, c.link = some l → l ∈ history) →
      runGateLinear history queue = ⟨none, history, 0⟩ := by
  intro queue
  induction queue with
  | nil => intro; rfl
  | cons c rest ih =>
    intro hall
    have hrest : ∀ c ∈ rest, ∀ l, c.link = some l → l ∈ history :=
      fun d hd => hall d (List.mem_cons_of_mem _ hd)
    unfold runGateLinear
    cases hl : c.link with
    | none => simp only [hl]; exact ih hrest
    | some l =>
      have hmem : l ∈ history := hall c (List.mem_cons_self _ _) l hl
      simp only [hl]
      rw [if_pos (List.elem_iff.mpr hmem)]
      exact ih hrest

/-- C1: the publication gate never publishes a link already present in the durable
history at run start, and a run whose every queued candidate link is already in
the history (or whose queue is empty) publishes nothing, reports failure, and
leaves the store untouched and unwritten. -/
theorem processOneTweetLinear_exactly_once (history : List String)
    (queue : List TrialCandidate) :
    (∀ link s, link ∈ history →
        (processOneTweetLinear history queue).published ≠ some (link, s))
      ∧ ((∀ c ∈ queue, ∀ l, c.link = some l → l ∈ history) →
          processOneTweetLinear history queue = ⟨none, history, 0⟩) := by
  constructor
  · intro link s hmem
    exact runGateLinear_published_not_in_history history (queue.take 8) link s hmem
  · intro hall
    exact runGateLinear_all_posted history (queue.take 8)
      (fun c hc => hall c (List.mem_of_mem_take hc))

/-- Witness for C1: with the single feed candidate's link pre-seeded in the
history, the run publishes nothing and the history is unchanged. -/
theorem processOneTweetLinear_exactly_once_witness :
    processOneTweetLinear ["https://e.com/a"]
        [⟨some "https://e.com/a", some (String.mk (List.replicate 300 'x')), none,
          fun _ => none, 1, true⟩]
      = ⟨none, ["https://e.com/a"], 0⟩ :=
  (processOneTweetLinear_exactly_once ["https://e.com/a"]
      [⟨some "https://e.com/a", some (String.mk (List.replicate 300 'x')), none,
        fun _ => none, 1, true⟩]).2
    (by
      intro c hc l hl
      simp only [List.mem_singleton] at hc
      subst hc
      simp only [Option.some.injEq] at hl
      subst hl
      exact List.mem_singleton.mpr rfl)

/-- Shared helper: a gate run either publishes nothing, leaving the store alone
with zero writes, or publishes exactly one candidate's link with one write,
appending exactly that link, the summary being one actually returned by the
generator for that candidate. -/
theorem runGateLinear_cases (history : List String) :
    ∀ (queue : List TrialCandidate),
      runGateLinear history queue = ⟨none, history, 0⟩
        ∨ ∃ link summary,
            runGateLinear history queue = ⟨some (link, summary), history ++ [link], 1⟩
              ∧ ∃ c ∈ queue, c.link = some link
                  ∧ generateStrictLengthSummary c.gemini 0 c.fuel = some (some summary) := by
  intro queue
  induction queue with
  | nil => exact Or.inl rfl
  | cons c rest ih =>
    have next : runGateLinear history (c :: rest) = runGateLinear history rest
        → (runGateLinear history (c :: rest) = ⟨none, history, 0⟩
            ∨ ∃ link summary,
                runGateLinear history (c :: rest)
                    = ⟨some (link, summary), history ++ [link], 1⟩
                  ∧ ∃ d ∈ c :: rest, d.link = some link
                      ∧ generateStrictLengthSummary d.gemini 0 d.fuel
                          = some (some summary)) := by
      intro he
      rw [he]
      rcases ih with h | ⟨link, summary, heq, d, hd, h1, h2⟩
      · exact Or.inl h
      · exact Or.inr ⟨link, summary, heq, d, List.mem_cons_of_mem _ hd, h1, h2⟩
    cases hl : c.link with
    | none =>
      refine next ?_
      conv_lhs => unfold runGateLinear
      simp only [hl]
    | some l =>
      by_cases hc : history.contains l = true
      · refine next ?_
        conv_lhs => unfold runGateLinear
        simp only [hl]
        rw [if_pos hc]
      · cases hco : c.content with
        | none =>
          refine next ?_
          conv_lhs => unfold runGateLinear
          simp only [hl]
          rw [if_neg hc]
          simp only [hco]
        | some content =>
          by_cases hlen : content.length < 300
          · refine next ?_
            conv_lhs => unfold runGateLinear
            simp only [hl]
            rw [if_neg hc]
            simp only [hco]
            rw [if_pos hlen]
          · cases hg : generateStrictLengthSummary c.gemini 0 c.fuel with
            | none =>
              refine next ?_
              conv_lhs => unfold runGateLinear
              simp only [hl]
              rw [if_neg hc]
              simp only [hco]
              rw [if_neg hlen]
              simp only [hg]
            | some og =>
              cases og with
              | none =>
                refine next ?_
                conv_lhs => unfold runGateLinear
                simp only [hl]
                rw [if_neg hc]
                simp only [hco]
                rw [if_neg hlen]
                simp only [hg]
              | some summary =>
                by_cases hp : c.postOk = true
                · refine Or.inr ⟨l, summary, ?_, c, List.mem_cons_self _ _, hl, hg⟩
                  conv_lhs => unfold runGateLinear
                  simp only [hl]
                  rw [if_neg hc]
                  simp only [hco]
                  rw [if_neg hlen]
                  simp only [hg]
                  rw [if_pos hp]
                · refine next ?_
                  conv_lhs => unfold runGateLinear
                  simp only [hl]
                  rw [if_neg hc]
                  simp only [hco]
                  rw [if_neg hlen]
                  simp only [hg]
                  rw [if_neg hp]

/-- C9: within one run the durable store is written at most once, a write happens
exactly when a publish succeeded, a successful publish appends exactly the one
published link to the store, a publish-free run leaves the store untouched with
zero writes, and the load step rewrites the store only to trim it to the most
recent 1000 entries when more than 1000 distinct links are held. -/
theorem history_write_discipline (history : List String) (queue : List TrialCandidate) :
    (processOneTweetLinear history queue).writes ≤ 1
      ∧ ((processOneTweetLinear history queue).writes = 1
          ↔ (processOneTweetLinear history queue).published ≠ none)
      ∧ (∀ link s, (processOneTweetLinear history queue).published = some (link, s) →
          (processOneTweetLinear history queue).store = history ++ [link]
            ∧ (processOneTweetLinear history queue).writes = 1)
      ∧ ((processOneTweetLinear history queue).published = none →
          (processOneTweetLinear history queue).store = history
            ∧ (processOneTweetLinear history queue).writes = 0)
      ∧ (∀ arr : List String,
          ((loadPostedLinks arr).2 = 0 → (loadPostedLinks arr).1 = arr)
            ∧ ((loadPostedLinks arr).2 ≠ 0 →
                1000 < arr.dedup.length
                  ∧ (loadPostedLinks arr).1 = arr.drop (arr.length - 1000)
                  ∧ (loadPostedLinks arr).2 = 1)) := by
  have hload : ∀ arr : List String,
      ((loadPostedLinks arr).2 = 0 → (loadPostedLinks arr).1 = arr)
        ∧ ((loadPostedLinks arr).2 ≠ 0 →
            1000 < arr.dedup.length
              ∧ (loadPostedLinks arr).1 = arr.drop (arr.length - 1000)
              ∧ (loadPostedLinks arr).2 = 1) := by
    intro arr
    unfold loadPostedLinks
    split <;> simp_all
  unfold processOneTweetLinear
  rcases runGateLinear_cases history (queue.take 8) with h | ⟨link, summary, heq, -⟩
  · rw [h]
    exact ⟨Nat.zero_le 1, by simp, fun link s hcon => by simp at hcon,
      fun _ => ⟨rfl, rfl⟩, hload⟩
  · rw [heq]
    refine ⟨le_refl 1, by simp, ?_, fun hcon => by simp at hcon, hload⟩
    intro link2 s hs
    simp only [Option.some.injEq, Prod.mk.injEq] at hs
    exact ⟨by rw [hs.1], rfl⟩

set_option maxRecDepth 4000 in
/-- Witness for C9 at a concrete successful run: the store gains exactly the
published link with exactly one write. -/
theorem history_write_discipline_witness :
    (processOneTweetLinear []
        [⟨some "https://e.com/b", some (String.mk (List.replicate 300 'x')), none,
          fun _ => some (String.mk (List.replicate 260 'a')), 1, true⟩]).store
        = [] ++ ["https://e.com/b"]
      ∧ (processOneTweetLinear []
          [⟨some "https://e.com/b", some (String.mk (List.replicate 300 'x')), none,
            fun _ => some (String.mk (List.replicate 260 'a')), 1, true⟩]).writes = 1 :=
  (history_write_discipline []
      [⟨some "https://e.com/b", some (String.mk (List.replicate 300 'x')), none,
        fun _ => some (String.mk (List.replicate 260 'a')), 1, true⟩]).2.2.1
    "https://e.com/b" (String.mk (List.replicate 260 'a')) (by decide)

/-- C4: every text the gate commits to a publish call is at most 280 characters
long, and whenever the generator receives a summary longer than 280 characters it
deterministically truncates it to its first 277 characters plus an ellipsis, so
the returned summary is exactly 280 characters and never exceeds 280. -/
theorem publish_length_cap (history : List String) (queue : List TrialCandidate) :
    (∀ link s, (processOneTweetLinear history queue).published = some (link, s) →
        s.length ≤ 280)
      ∧ (∀ r : String, 280 < r.length →
          generateStrictLengthSummary (fun _ => some r) 0 1
              = some (some (jsTakeStr r 277 ++ "..."))
            ∧ (jsTakeStr r 277 ++ "...").length = 280) := by
  constructor
  · unfold processOneTweetLinear
    intro link s hs
    rcases runGateLinear_cases history (queue.take 8) with h | ⟨l2, s2, heq, c, -, -, hg⟩
    · rw [h] at hs; cases hs
    · rw [heq] at hs
      simp only [Option.some.injEq, Prod.mk.injEq] at hs
      rw [← hs.2]
      exact generateStrictLengthSummary_le_280 c.fuel 0 c.gemini s2 hg
  · intro r hr
    have hnotshort : ¬r.length < MIN_SUMMARY_LENGTH := by
      unfold MIN_SUMMARY_LENGTH; omega
    have hlong : MAX_SUMMARY_LENGTH < r.length := by
      unfold MAX_SUMMARY_LENGTH; omega
    constructor
    · show (if r.length < MIN_SUMMARY_LENGTH then
            generateStrictLengthSummary (fun _ => some r) 1 0
          else if MAX_SUMMARY_LENGTH < r.length then
            some (some (truncateWithEllipsis r))
          else some (some r)) = some (some (jsTakeStr r 277 ++ "..."))
      rw [if_neg hnotshort, if_pos hlong]
      rfl
    · exact truncateWithEllipsis_length r (by omega)

set_option maxRecDepth 4000 in
/-- Witness for C4 at a concrete over-length generator output and a concrete
committed publication. -/
theorem publish_length_cap_witness :
    (processOneTweetLinear []
        [⟨some "https://e.com/c", some (String.mk (List.replicate 300 'x')), none,
          fun _ => some (String.mk (List.replicate 300 'a')), 1, true⟩]).published
        = some ("https://e.com/c", truncateWithEllipsis (String.mk (List.replicate 300 'a')))
      ∧ (truncateWithEllipsis (String.mk (List.replicate 300 'a'))).length ≤ 280
      ∧ generateStrictLengthSummary (fun _ => some (String.mk (List.replicate 300 'a'))) 0 1
        = some (some (jsTakeStr (String.mk (List.replicate 300 'a')) 277 ++ "...")) := by
  refine ⟨by decide, ?_, ?_⟩
  · exact (publish_length_cap []
      [⟨some "https://e.com/c", some (String.mk (List.replicate 300 'x')), none,
        fun _ => some (String.mk (List.replicate 300 'a')), 1, true⟩]).1
      "https://e.com/c" (truncateWithEllipsis (String.mk (List.replicate 300 'a')))
      (by decide)
  · exact ((publish_length_cap [] []).2 (String.mk (List.replicate 300 'a')) (by decide)).1

/-! ## `postTweet` media handling (claim C3)

Embedded from the media-processing block of one `postTweet` attempt: the media
bytes are downloaded (modelled by `downloadOk` plus the server-declared
`contentType`), a MIME type is derived as `mimeFromExt(media.url) || contentType`,
and the upload is attempted according to the image/video allow-lists.  For an
image whose type is in neither allow-list the source retries the upload with a
forced `image/jpeg` MIME type and attaches the result when that upload succeeds;
for a video outside the allow-list no upload is attempted.  `uploadOk` models
`rwClient.v1.uploadMedia`: `some id` on success, `none` when the call throws. -/

/-- `url.split('.').pop()`: the segment after the last dot (the whole string when
no dot occurs). -/
def afterLastDot (l : List Char) : List Char :=
  (l.reverse.takeWhile (fun c => ¬c = '.')).reverse

/-- `url.split('.').pop().toLowerCase().split('?')[0]` followed by the
`mimeTypes[ext] || null` table lookup. -/
def mimeFromExt (url : String) : Option String :=
  if url = "" then none
  else
    let ext := String.mk (((afterLastDot url.data).map lowerChar).takeWhile (fun c => ¬c = '?'))
    if ext = "jpg" then some "image/jpeg"
    else if ext = "jpeg" then some "image/jpeg"
    else if ext = "png" then some "image/png"
    else if ext = "gif" then some "image/gif"
    else if ext = "webp" then some "image/webp"
    else if ext = "mp4" then some "video/mp4"
    else if ext = "mov" then some "video/quicktime"
    else if ext = "webm" then some "video/webm"
    else none

def allowedImageTypes : List String :=
  ["image/jpeg", "image/png", "image/gif", "image/webp"]

def allowedVideoTypes : List String :=
  ["video/mp4", "video/quicktime", "video/webm"]

/-- The `media_ids` list produced by the media block of one `postTweet` attempt;
the tweet carries an attachment exactly when this list is non-empty. -/
def postTweetMediaIds (media : Option MediaRef) (downloadOk : Bool)
    (contentType : String) (uploadOk : String → Option String) : List String :=
  match media with
  | none => []
  | some m =>
    if m.url = "" then []
    else if ¬downloadOk then []
    else
      let mimeType := (mimeFromExt m.url).getD contentType
      if m.kind = MediaKind.image then
        if allowedImageTypes.contains mimeType || allowedImageTypes.contains contentType then
          match uploadOk (if mimeType = "" then "image/jpeg" else mimeType) with
          | some id => [id]
          | none => []
        else
          match uploadOk "image/jpeg" with
          | some id => [id]
          | none => []
      else
        if allowedVideoTypes.contains mimeType || allowedVideoTypes.contains contentType then
          match uploadOk (if mimeType = "" then "video/mp4" else mimeType) with
          | some id => [id]
          | none => []
        else []

/-- C3 counterexample: a `.bmp` image whose resolved MIME type
(`application/octet-stream`, not in the image allow-list, with no
extension-derived type) is nevertheless uploaded by the forced-JPEG fallback and
attached to the post, so a media attachment outside the supported type sets does
not always degrade to a text-only publish. -/
theorem postTweet_uploads_unsupported_image :
    postTweetMediaIds (some ⟨MediaKind.image, "https://e.com/pic.bmp"⟩) true
        "application/octet-stream" (fun _ => some "mid1") = ["mid1"]
      ∧ mimeFromExt "https://e.com/pic.bmp" = none
      ∧ allowedImageTypes.contains "application/octet-stream" = false := by
  refine ⟨by decide, by decide, by decide⟩

/-- C3 amended: a video attachment is uploaded only if its resolved MIME type (or
the server content type) is in the supported video set, otherwise the publish
proceeds text-only; an image attachment outside the supported image set is not
dropped but retried as a forced `image/jpeg` upload and attached exactly when
that upload succeeds (the publish degrades to text-only only when the fallback
upload also fails). -/
theorem postTweet_allow_list (m : MediaRef) (downloadOk : Bool) (contentType : String)
    (uploadOk : String → Option String) :
    (m.kind = MediaKind.video →
        allowedVideoTypes.contains ((mimeFromExt m.url).getD contentType) = false →
        allowedVideoTypes.contains contentType = false →
        postTweetMediaIds (some m) downloadOk contentType uploadOk = [])
      ∧ (m.kind = MediaKind.image → m.url ≠ "" → downloadOk = true →
          allowedImageTypes.contains ((mimeFromExt m.url).getD contentType) = false →
          allowedImageTypes.contains contentType = false →
          postTweetMediaIds (some m) downloadOk contentType uploadOk
            = match uploadOk "image/jpeg" with
              | some id => [id]
              | none => []) := by
  obtain ⟨k, url⟩ := m
  constructor
  · intro hk h1 h2
    subst hk
    unfold postTweetMediaIds
    by_cases hu : url = ""
    · simp [hu]
    · by_cases hd : downloadOk = true
      · simp only [hu, hd]
        have hkind : (MediaKind.video = MediaKind.image) = False := by simp
        simp [hkind, h1, h2]
        intro hmem
        rcases hmem with hm | hm
        · exact absurd hm (by simpa using h1)
        · exact absurd hm (by simpa using h2)
      · have hd' : downloadOk = false := by revert hd; cases downloadOk <;> simp
        simp [hd', hu]
  · intro hk hu hd h1 h2
    subst hk
    subst hd
    unfold postTweetMediaIds
    simp [hu, h1, h2]
    intro hmem
    rcases hmem with hm | hm
    · exact absurd hm (by simpa using h1)
    · exact absurd hm (by simpa using h2)

/-- Witness for the amended C3 theorem: an `.avi` video with an unsupported
content type is not attached — the publish is text-only. -/
theorem postTweet_allow_list_witness :
    postTweetMediaIds (some ⟨MediaKind.video, "https://e.com/v.avi"⟩) true
        "video/x-msvideo" (fun _ => some "mid2") = [] :=
  (postTweet_allow_list ⟨MediaKind.video, "https://e.com/v.avi"⟩ true
      "video/x-msvideo" (fun _ => some "mid2")).1 rfl (by decide) (by decide)

end DailySnap
